import Mathlib

/-!
Verification of the ETNA pipeline orchestrator (`scripts/pipeline.py`).

This file gives a shallow embedding of the script-execution and
status-aggregation engine: the status-line protocol, the per-directory
status store, the run-all aggregation, and the certificate issuer's
control flow.  Each definition is translated from the Python source;
the comment above each one cites the function it embeds.
-/

namespace Etna

/-- Whitespace test used by Python `str.strip` and the regex class `\s`
(restricted to the ASCII whitespace characters; the scripts only emit
these). -/
def pyIsSpace (c : Char) : Bool :=
  c = ' ' || c = '\t' || c = '\n' || c = '\x0d' || c = '\x0b' || c = '\x0c'

/-- Python `str.strip()`: drop leading and trailing whitespace. -/
def pyStrip (s : String) : String :=
  ⟨((s.data.dropWhile pyIsSpace).reverse.dropWhile pyIsSpace).reverse⟩

/-- Python `str.startswith(pre)`. -/
def pyStartsWith (s pre : String) : Bool :=
  pre.data.isPrefixOf s.data

/-- `pipeline.py` line 121: icon recorded for a script that has not run. -/
def NOT_RUN_ICON : String := "⏺"

/-- `pipeline.py` line 122: icon for informational (non-gating) scripts. -/
def INFO_ONLY_ICON : String := "📝"

/-- `pipeline.py` lines 126-130: scripts that generate reports but do not
pass/fail the manuscript. -/
def INFO_ONLY_SCRIPTS : List String :=
  ["08_ward_audit.py", "10_like_and_crutchwords.py", "11_repetition_patterns.py"]

/-- `pipeline.py` lines 207-208 (`is_info_only_script`). -/
def is_info_only_script (scriptName : String) : Bool :=
  INFO_ONLY_SCRIPTS.contains scriptName

/-- `pipeline.py` line 117: `STATUS_LINE_RE`, i.e. the regex `[icon] \uFE0F? \s+` anchored at the start.
True when the string starts with one of the three icons, optionally
followed by U+FE0F, followed by at least one whitespace character. -/
def statusLineMatches (s : String) : Bool :=
  match s.data with
  | [] => false
  | c :: rest =>
    if c = '✅' || c = '❌' || c = '⚠' then
      match rest with
      | [] => false
      | c2 :: rest2 =>
        if c2 = '\uFE0F' then
          match rest2 with
          | [] => false
          | c3 :: _ => pyIsSpace c3
        else pyIsSpace c2
    else false

/-- `pipeline.py` lines 199-204 (`_extract_status_line`): return the stripped
line when it matches the status-line grammar, else nothing. -/
def extract_status_line (line : String) : Option String :=
  if pyStrip line = "" then none
  else if statusLineMatches (pyStrip line) then some (pyStrip line) else none

/-- `pipeline.py` lines 132-152 (`_status_icon_from_status_line`): normalise
the leading icon of a status line; the bare warning icon is normalised to
the two-codepoint form. -/
def status_icon_from_status_line (statusLine : Option String) : String :=
  match statusLine with
  | none => NOT_RUN_ICON
  | some line =>
    if line = "" then NOT_RUN_ICON
    else
      match (pyStrip line).data with
      | [] => NOT_RUN_ICON
      | c :: _ =>
        if c = '✅' then "✅"
        else if c = '❌' then "❌"
        else if c = '⚠' then "⚠\uFE0F"
        else if c = '📝' then "📝"
        else "❔"

/-- The failure line synthesised at `pipeline.py` line 220 (and 319-320). -/
def failSynthLine (scriptName : String) (rc : Int) : String :=
  "❌ " ++ scriptName ++ " failed (exit " ++ toString rc ++ ") — see output above"

/-- The warning line synthesised at `pipeline.py` lines 221-224. -/
def warnSynthLine (scriptName : String) : String :=
  "⚠\uFE0F  " ++ scriptName ++
    " finished — no status one-liner detected (open its report/output if unsure)"

/-- `pipeline.py` lines 211-224 (`canonical_status_line`): a matched line is
returned verbatim (Python truthiness: an empty string counts as absent);
otherwise a failure or warning line is synthesised from the exit code. -/
def canonical_status_line (scriptName : String) (rc : Int)
    (statusLine : Option String) : String :=
  match statusLine with
  | some s => if s = "" then
      (if rc ≠ 0 then failSynthLine scriptName rc else warnSynthLine scriptName)
    else s
  | none =>
      if rc ≠ 0 then failSynthLine scriptName rc else warnSynthLine scriptName

/-- A JSON value as produced by `json.loads` (numbers restricted to
integers; the status store only ever holds strings). -/
inductive PyJson where
  | jnull
  | jbool (b : Bool)
  | jnum (n : Int)
  | jstr (s : String)
  | jarr (items : List PyJson)
  | jobj (entries : List (String × PyJson))

mutual

/-- Python `repr` of a parsed JSON value (string escaping omitted). -/
def pyRepr : PyJson → String
  | .jnull => "None"
  | .jbool true => "True"
  | .jbool false => "False"
  | .jnum n => toString n
  | .jstr s => "\x27" ++ s ++ "\x27"
  | .jarr items => "[" ++ pyReprItems items ++ "]"
  | .jobj entries => "\x7b" ++ pyReprEntries entries ++ "\x7d"

/-- Comma-separated `repr`s of list items. -/
def pyReprItems : List PyJson → String
  | [] => ""
  | [x] => pyRepr x
  | x :: xs => pyRepr x ++ ", " ++ pyReprItems xs

/-- Comma-separated `repr`s of dict entries. -/
def pyReprEntries : List (String × PyJson) → String
  | [] => ""
  | [kv] => "\x27" ++ kv.1 ++ "\x27: " ++ pyRepr kv.2
  | kv :: kvs => "\x27" ++ kv.1 ++ "\x27: " ++ pyRepr kv.2 ++ ", " ++ pyReprEntries kvs

end

/-- Python `str` of a parsed JSON value: identity on strings, `repr`
otherwise. -/
def pyStr (j : PyJson) : String :=
  match j with
  | .jstr s => s
  | _ => pyRepr j

/-- First-occurrence lookup in an association list (Python `d[k]` read). -/
def lookupKey {α : Type} : List (String × α) → String → Option α
  | [], _ => none
  | (k0, v0) :: rest, k => if k0 = k then some v0 else lookupKey rest k

/-- Python `d[k] = v`: replace the value at an existing key in place,
else append the new pair at the end. -/
def setKey {α : Type} : List (String × α) → String → α → List (String × α)
  | [], k, v => [(k, v)]
  | (k0, v0) :: rest, k, v =>
    if k0 = k then (k, v) :: rest else (k0, v0) :: setKey rest k v

/-- The keys of an association list, in order. -/
def keysOf {α : Type} (l : List (String × α)) : List String :=
  l.map Prod.fst

/-- Building a Python dict from a sequence of key/value pairs: the first
occurrence of a key fixes its position, the last fixes its value.  This is
how `json.loads` collapses duplicate object keys and how a dict
comprehension accumulates. -/
def pyDictOf {α : Type} (l : List (String × α)) : List (String × α) :=
  l.foldl (fun acc kv => setKey acc kv.1 kv.2) []

/-- Outcome of `p.read_text()` followed by `json.loads` on the status-store
file: the file may be absent, unreadable, unparsable, or hold a JSON
value. -/
inductive FileRead where
  | missing
  | readError
  | invalidJson
  | parsed (j : PyJson)

/-- `pipeline.py` lines 157-170 (`load_last_status`): a missing file, a read
error, a parse error, or a non-dict value all yield an empty mapping; a
dict is rebuilt with `str` applied to keys and values (JSON object keys
are already strings). -/
def load_last_status : FileRead → List (String × String)
  | .parsed (.jobj entries) =>
    let data := pyDictOf entries
    pyDictOf (data.map (fun kv => (kv.1, pyStr kv.2)))
  | _ => []

/-- Key order used by `json.dumps(..., sort_keys=True)`. -/
def keyLE {α : Type} (a b : String × α) : Prop :=
  a.1 ≤ b.1

instance {α : Type} : DecidableRel (@keyLE α) :=
  fun a b => inferInstanceAs (Decidable (a.1 ≤ b.1))

instance {α : Type} : IsTotal (String × α) keyLE :=
  ⟨fun a b => le_total a.1 b.1⟩

instance {α : Type} : IsTrans (String × α) keyLE :=
  ⟨fun _ _ _ h1 h2 => le_trans h1 h2⟩

/-- Sorting an association list by key, as `json.dumps(..., sort_keys=True)`
does. -/
def sortByKey {α : Type} (l : List (String × α)) : List (String × α) :=
  List.insertionSort keyLE l

/-- `pipeline.py` lines 172-182 (`save_last_status`): serialise the mapping
key-sorted.  (A swallowed write failure leaves the previous state; the
model covers the successful write.) -/
def save_last_status (statusMap : List (String × String)) : FileRead :=
  .parsed (.jobj ((sortByKey statusMap).map (fun kv => (kv.1, PyJson.jstr kv.2))))

/-- The icon precedence of `pipeline.py` lines 188-193: a non-zero exit code
always stores the failure icon; otherwise informational scripts store the
info icon; otherwise the icon is normalised from the status line. -/
def update_icon (scriptName : String) (rc : Int) (statusLine : Option String) : String :=
  if rc ≠ 0 then "❌"
  else if is_info_only_script scriptName then INFO_ONLY_ICON
  else status_icon_from_status_line statusLine

/-- `pipeline.py` lines 184-196 (`update_last_status`): load, mutate one key,
save. -/
def update_last_status (st : FileRead) (scriptName : String) (rc : Int)
    (statusLine : Option String) : FileRead :=
  save_last_status
    (setKey (load_last_status st) scriptName (update_icon scriptName rc statusLine))

/-- What happened once `run_script` decided how to invoke the script: the
subprocess ran to completion with some decoded output lines and a return
code, or the user interrupted it, or spawning raised. -/
inductive RunEvent where
  | completed (outputLines : List String) (returncode : Int)
  | interrupted
  | spawnError (errText : String)

/-- The retained verdict after scanning the output stream, `pipeline.py`
lines 299-314: each decoded line is offered to `_extract_status_line` and
the last match wins. -/
def last_status_line (lines : List String) : Option String :=
  lines.foldl
    (fun acc l =>
      match extract_status_line l with
      | some s => some s
      | none => acc)
    none

/-- `pipeline.py` lines 248-329 (`run_script`): unsupported suffixes are
rejected without spawning; a completed run keeps its exit code and last
matched line, synthesising a failure line when the exit code is non-zero
and nothing matched; interruption and spawn errors return synthesised
failure lines with exit codes 130 and 1. -/
def run_script (scriptName suffix : String) (ev : RunEvent) : Int × Option String :=
  if suffix ≠ ".py" ∧ suffix ≠ ".sh" then
    (1, some ("❌ Unsupported script type: " ++ scriptName))
  else
    match ev with
    | .completed lines rc =>
      let status := last_status_line lines
      if rc ≠ 0 ∧ status = none then (rc, some (failSynthLine scriptName rc))
      else (rc, status)
    | .interrupted => (130, some ("❌ " ++ scriptName ++ " interrupted (Ctrl+C)"))
    | .spawnError e => (1, some ("❌ " ++ scriptName ++ " runner error — " ++ e))

/-- The per-script flag update of the run-all loop, `pipeline.py` lines
685-694: gating scripts set `any_bad` on a canonical line starting with
"❌" and `any_needs_review` on one starting with "⚠" U+FE0F; any non-zero
exit code sets `any_bad`. -/
def updateFlags (scriptName : String) (rc : Int) (line : String)
    (flags : Bool × Bool) : Bool × Bool :=
  let flags1 :=
    if !is_info_only_script scriptName then
      if pyStartsWith line "❌" then (true, flags.2)
      else if pyStartsWith line "⚠\uFE0F" then (flags.1, true)
      else flags
    else flags
  if rc ≠ 0 then (true, flags1.2) else flags1

/-- One iteration of the run-all loop, `pipeline.py` lines 677-694: the
script contributes its canonical status line to the flag update.  A batch
element is `(script name, exit code, extracted line)` as returned by
`run_script`. -/
def runAllStep (flags : Bool × Bool) (r : String × Int × Option String) :
    Bool × Bool :=
  updateFlags r.1 r.2.1 (canonical_status_line r.1 r.2.1 r.2.2) flags

/-- The two accumulators over the whole batch, starting from
`any_bad = any_needs_review = false` (lines 674-675). -/
def run_all_flags (runs : List (String × Int × Option String)) : Bool × Bool :=
  runs.foldl runAllStep (false, false)

/-- Terminal classification of a run-all batch. -/
inductive Overall where
  | Clean
  | NeedsReview
  | Failed
deriving DecidableEq

/-- `pipeline.py` lines 702-711: clean, needs-review, or failed. -/
def classify_overall (flags : Bool × Bool) : Overall :=
  if !flags.1 && !flags.2 then .Clean
  else if !flags.1 && flags.2 then .NeedsReview
  else .Failed

/-- `pipeline.py` lines 702-707: the certificate writer is invoked exactly
when neither flag is set. -/
def certificate_attempted (flags : Bool × Bool) : Bool :=
  !flags.1 && !flags.2

/-- Python `str.title()` (restricted to `Char.isAlpha` as the cased-character
test): uppercase a letter that follows a non-letter, lowercase the
rest. -/
def pyTitleGo : Bool → List Char → List Char
  | _, [] => []
  | prevAlpha, c :: rest =>
    (if c.isAlpha then (if prevAlpha then c.toLower else c.toUpper) else c)
      :: pyTitleGo c.isAlpha rest

/-- Python `str.title()` on a whole string. -/
def pyTitle (s : String) : String :=
  ⟨pyTitleGo false s.data⟩

/-- The two exceptions `book_title_for_certificate` can raise,
`pipeline.py` lines 345-355. -/
inductive TitleError where
  | noDocx
  | multipleDocx (count : Nat)
deriving DecidableEq

/-- `pipeline.py` lines 333-359 (`book_title_for_certificate`): expects the
sorted list of `.docx` stems directly in the book folder to be a
singleton, raising otherwise; the title is the stem with underscores and
hyphens turned to spaces, stripped and title-cased. -/
def book_title_for_certificate (docxStems : List String) : Except TitleError String :=
  match docxStems with
  | [] => .error .noDocx
  | [stem] => .ok (pyTitle (pyStrip ((stem.replace "_" " ").replace "-" " ")))
  | stems => .error (.multipleDocx stems.length)

/-- The environment `write_correctness_certificate` runs in: whether the
rendering backend imports, whether a background image resolves, and the
`.docx` stems directly in the book folder (sorted by lowercased name as in
line 343). -/
structure CertEnv where
  reportlabAvailable : Bool
  bgAvailable : Bool
  docxStems : List String

/-- `pipeline.py` lines 362-580 (`write_correctness_certificate`): a failed
rendering-backend import is caught at lines 383-392 (warning printed,
`None` returned).  Past that point both the background branch (line 505)
and the plain fallback (line 546) call `book_title_for_certificate` with
no handler, so a title-derivation exception propagates (`.error`); a
successful render returns the timestamped report path.  The drawing calls
themselves only paint the canvas and do not affect the result. -/
def write_correctness_certificate (env : CertEnv) (bookDirName ts : String)
    (summaries : List (String × String)) : Except TitleError (Option String) :=
  let outPath :=
    "reports/certificate_correctness_" ++ bookDirName ++ "_" ++ ts ++ ".pdf"
  let _ := summaries
  if !env.reportlabAvailable then .ok none
  else
    match book_title_for_certificate env.docxStems with
    | .error e => .error e
    | .ok _ => .ok (some outPath)

section AssocLemmas

variable {α : Type}

/-- Looking up the key just written finds the new value. -/
theorem lookupKey_setKey_self (l : List (String × α)) (k : String) (v : α) :
    lookupKey (setKey l k v) k = some v := by
  induction l with
  | nil => simp [setKey, lookupKey]
  | cons kv rest ih =>
    obtain ⟨k0, v0⟩ := kv
    by_cases h : k0 = k
    · simp [setKey, h, lookupKey]
    · simp [setKey, h, lookupKey, ih]

/-- Writing one key leaves every other key's lookup unchanged. -/
theorem lookupKey_setKey_other (l : List (String × α)) (k : String) (v : α)
    (k' : String) (h : k' ≠ k) :
    lookupKey (setKey l k v) k' = lookupKey l k' := by
  induction l with
  | nil => simp [setKey, lookupKey, Ne.symm h]
  | cons kv rest ih =>
    obtain ⟨k0, v0⟩ := kv
    by_cases h0 : k0 = k
    · subst h0
      simp [setKey, lookupKey, Ne.symm h]
    · simp [setKey, h0, lookupKey, ih]

/-- A key present after `setKey` was present before or is the written key. -/
theorem mem_keysOf_setKey {l : List (String × α)} {k a : String} {v : α}
    (h : a ∈ keysOf (setKey l k v)) : a ∈ keysOf l ∨ a = k := by
  induction l with
  | nil =>
    right
    simpa [setKey, keysOf] using h
  | cons kv rest ih =>
    obtain ⟨k0, v0⟩ := kv
    by_cases h0 : k0 = k
    · subst h0
      simp only [setKey, if_pos rfl] at h
      left
      simpa [keysOf] using h
    · simp only [setKey, if_neg h0, keysOf, List.map_cons, List.mem_cons] at h
      simp only [keysOf, List.map_cons, List.mem_cons]
      rcases h with h | h
      · exact Or.inl (Or.inl h)
      · rcases ih h with h' | h'
        · exact Or.inl (Or.inr h')
        · exact Or.inr h'

/-- `setKey` preserves key distinctness. -/
theorem nodup_keysOf_setKey {l : List (String × α)} {k : String} {v : α}
    (h : (keysOf l).Nodup) : (keysOf (setKey l k v)).Nodup := by
  induction l with
  | nil => simp [setKey, keysOf]
  | cons kv rest ih =>
    obtain ⟨k0, v0⟩ := kv
    simp only [keysOf, List.map_cons, List.nodup_cons] at h
    by_cases h0 : k0 = k
    · subst h0
      simpa [setKey, keysOf, List.nodup_cons] using h
    · have tail := ih h.2
      simp only [setKey, if_neg h0, keysOf, List.map_cons, List.nodup_cons]
      refine ⟨fun hc => ?_, tail⟩
      rcases mem_keysOf_setKey hc with h' | h'
      · exact h.1 h'
      · exact h0 h'

/-- Writing the value a key already has is a no-op. -/
theorem setKey_eq_self {l : List (String × α)} {k : String} {v : α}
    (h : lookupKey l k = some v) : setKey l k v = l := by
  induction l with
  | nil => simp [lookupKey] at h
  | cons kv rest ih =>
    obtain ⟨k0, v0⟩ := kv
    by_cases h0 : k0 = k
    · simp [lookupKey, h0] at h
      simp [setKey, h0, h]
    · simp only [lookupKey, if_neg h0] at h
      simp [setKey, h0, ih h]

/-- Writing an absent key appends it. -/
theorem setKey_of_not_mem {l : List (String × α)} {k : String} (v : α)
    (h : k ∉ keysOf l) : setKey l k v = l ++ [(k, v)] := by
  induction l with
  | nil => simp [setKey]
  | cons kv rest ih =>
    obtain ⟨k0, v0⟩ := kv
    simp only [keysOf, List.map_cons, List.mem_cons, not_or] at h
    simp [setKey, Ne.symm h.1, ih (by simpa [keysOf] using h.2)]

/-- Folding `setKey` over any pair sequence yields distinct keys. -/
theorem nodup_keysOf_foldl_setKey (l : List (String × α))
    (acc : List (String × α)) (h : (keysOf acc).Nodup) :
    (keysOf (l.foldl (fun acc kv => setKey acc kv.1 kv.2) acc)).Nodup := by
  induction l generalizing acc with
  | nil => simpa using h
  | cons kv rest ih => exact ih _ (nodup_keysOf_setKey h)

/-- A Python dict always has distinct keys. -/
theorem nodup_keysOf_pyDictOf (l : List (String × α)) :
    (keysOf (pyDictOf l)).Nodup :=
  nodup_keysOf_foldl_setKey l [] (by simp [keysOf])

/-- Folding `setKey` over pairs with fresh, distinct keys appends them in
order. -/
theorem foldl_setKey_of_disjoint (l : List (String × α)) :
    ∀ acc : List (String × α), (keysOf l).Nodup →
      (∀ a ∈ keysOf l, a ∉ keysOf acc) →
      l.foldl (fun acc kv => setKey acc kv.1 kv.2) acc = acc ++ l := by
  induction l with
  | nil => simp
  | cons kv rest ih =>
    intro acc hnd hdis
    obtain ⟨k0, v0⟩ := kv
    simp only [keysOf, List.map_cons, List.nodup_cons] at hnd
    have hk0 : k0 ∉ keysOf acc := hdis k0 (by simp [keysOf])
    have step : setKey acc k0 v0 = acc ++ [(k0, v0)] := setKey_of_not_mem v0 hk0
    have hdis' : ∀ a ∈ keysOf rest, a ∉ keysOf (acc ++ [(k0, v0)]) := by
      intro a ha hc
      have hsplit : a ∈ keysOf acc ∨ a = k0 := by
        simpa [keysOf] using hc
      rcases hsplit with hc' | hc'
      · exact hdis a (List.mem_cons_of_mem k0 ha) hc'
      · exact hnd.1 (hc' ▸ ha)
    have hrec := ih (acc ++ [(k0, v0)]) hnd.2 hdis'
    simp only [List.foldl_cons]
    rw [show setKey acc (k0, v0).1 (k0, v0).2 = acc ++ [(k0, v0)] from step, hrec]
    simp

/-- Rebuilding a dict from a distinct-keyed pair list is the identity. -/
theorem pyDictOf_eq_self {l : List (String × α)} (h : (keysOf l).Nodup) :
    pyDictOf l = l := by
  simpa using foldl_setKey_of_disjoint l [] h (by simp [keysOf])

/-- A failed lookup is exactly key absence. -/
theorem lookupKey_eq_none_iff {l : List (String × α)} {k : String} :
    lookupKey l k = none ↔ k ∉ keysOf l := by
  induction l with
  | nil => simp [lookupKey, keysOf]
  | cons kv rest ih =>
    obtain ⟨k0, v0⟩ := kv
    by_cases h0 : k0 = k
    · subst h0
      simp [lookupKey, keysOf]
    · simp [lookupKey, h0, keysOf, ih, Ne.symm h0]

/-- With distinct keys, membership determines lookup. -/
theorem lookupKey_eq_some_of_mem {l : List (String × α)} {k : String} {v : α}
    (hnd : (keysOf l).Nodup) (h : (k, v) ∈ l) : lookupKey l k = some v := by
  induction l with
  | nil => simp at h
  | cons kv rest ih =>
    obtain ⟨k0, v0⟩ := kv
    simp only [keysOf, List.map_cons, List.nodup_cons] at hnd
    rcases List.mem_cons.mp h with h | h
    · have hk : k0 = k := (congrArg Prod.fst h).symm
      have hv : v0 = v := (congrArg Prod.snd h).symm
      simp [lookupKey, hk, hv]
    · by_cases h0 : k0 = k
      · exfalso
        apply hnd.1
        subst h0
        exact List.mem_map_of_mem Prod.fst h
      · simp [lookupKey, h0, ih hnd.2 h]

/-- A successful lookup witnesses membership. -/
theorem mem_of_lookupKey_eq_some {l : List (String × α)} {k : String} {v : α}
    (h : lookupKey l k = some v) : (k, v) ∈ l := by
  induction l with
  | nil => simp [lookupKey] at h
  | cons kv rest ih =>
    obtain ⟨k0, v0⟩ := kv
    by_cases h0 : k0 = k
    · subst h0
      simp [lookupKey] at h
      simp [h]
    · simp only [lookupKey, if_neg h0] at h
      exact List.mem_cons_of_mem _ (ih h)

/-- Lookup in a distinct-keyed list is stable under permutation. -/
theorem lookupKey_perm {l l' : List (String × α)} (hp : l.Perm l')
    (hnd : (keysOf l).Nodup) (k : String) : lookupKey l k = lookupKey l' k := by
  have hnd' : (keysOf l').Nodup := ((hp.map Prod.fst).nodup_iff).mp hnd
  cases hl : lookupKey l k with
  | none =>
    have : k ∉ keysOf l := lookupKey_eq_none_iff.mp hl
    have : k ∉ keysOf l' := fun hc => this ((hp.map Prod.fst).mem_iff.mpr hc)
    exact (lookupKey_eq_none_iff.mpr this).symm
  | some v =>
    have hm : (k, v) ∈ l' := hp.subset (mem_of_lookupKey_eq_some hl)
    exact (lookupKey_eq_some_of_mem hnd' hm).symm

/-- Sorting permutes the association list. -/
theorem perm_sortByKey (l : List (String × α)) : (sortByKey l).Perm l :=
  List.perm_insertionSort keyLE l

/-- Sorting is idempotent. -/
theorem sortByKey_idem (l : List (String × α)) :
    sortByKey (sortByKey l) = sortByKey l :=
  (List.sorted_insertionSort keyLE l).insertionSort_eq

/-- Mapping over values only does not change the key list. -/
theorem keysOf_map_values (l : List (String × α)) (f : α → α) :
    keysOf (l.map (fun kv => (kv.1, f kv.2))) = keysOf l := by
  simp [keysOf, List.map_map, Function.comp]

end AssocLemmas

/-- Saving then loading a distinct-keyed mapping recovers it key-sorted. -/
theorem load_save (m : List (String × String)) (h : (keysOf m).Nodup) :
    load_last_status (save_last_status m) = sortByKey m := by
  have hperm : (keysOf (sortByKey m)).Nodup :=
    (((perm_sortByKey m).map Prod.fst).nodup_iff).mpr h
  have hraw : keysOf ((sortByKey m).map (fun kv => (kv.1, PyJson.jstr kv.2)))
      = keysOf (sortByKey m) := by
    simp [keysOf, List.map_map, Function.comp]
  have hnodupraw :
      (keysOf ((sortByKey m).map (fun kv => (kv.1, PyJson.jstr kv.2)))).Nodup := by
    rw [hraw]
    exact hperm
  have hcomp : ((sortByKey m).map (fun kv => (kv.1, PyJson.jstr kv.2))).map
      (fun kv => (kv.1, pyStr kv.2)) = sortByKey m := by
    rw [List.map_map]
    exact List.map_id' _
  simp only [load_last_status, save_last_status]
  rw [pyDictOf_eq_self hnodupraw, hcomp, pyDictOf_eq_self hperm]

/-- Whatever was read, the loaded mapping has distinct keys. -/
theorem nodup_keysOf_load (st : FileRead) :
    (keysOf (load_last_status st)).Nodup := by
  cases st with
  | parsed j =>
    cases j with
    | jobj entries => exact nodup_keysOf_pyDictOf _
    | jnull => simp [load_last_status, keysOf]
    | jbool b => simp [load_last_status, keysOf]
    | jnum n => simp [load_last_status, keysOf]
    | jstr s => simp [load_last_status, keysOf]
    | jarr items => simp [load_last_status, keysOf]
  | missing => simp [load_last_status, keysOf]
  | readError => simp [load_last_status, keysOf]
  | invalidJson => simp [load_last_status, keysOf]

/-- A grammar-matching line starts with one of the three icons. -/
theorem statusLineMatches_head {s : String} (h : statusLineMatches s = true) :
    ∃ c rest, s.data = c :: rest ∧ (c = '✅' ∨ c = '❌' ∨ c = '⚠') := by
  unfold statusLineMatches at h
  rcases hs : s.data with _ | ⟨c, rest⟩
  · rw [hs] at h
    simp at h
  · rw [hs] at h
    refine ⟨c, rest, rfl, ?_⟩
    by_cases hc1 : c = '✅'
    · exact Or.inl hc1
    by_cases hc2 : c = '❌'
    · exact Or.inr (Or.inl hc2)
    by_cases hc3 : c = '⚠'
    · exact Or.inr (Or.inr hc3)
    exfalso
    simp [hc1, hc2, hc3] at h

/-- A string whose character list is a cons is not empty. -/
theorem ne_empty_of_data_cons {s : String} {c : Char} {rest : List Char}
    (h : s.data = c :: rest) : s ≠ "" := by
  intro he
  rw [he] at h
  exact List.noConfusion h

/-- A grammar-matching line is non-empty. -/
theorem ne_empty_of_statusLineMatches {s : String}
    (h : statusLineMatches s = true) : s ≠ "" := by
  obtain ⟨c, rest, hdata, _⟩ := statusLineMatches_head h
  exact ne_empty_of_data_cons hdata

/-- An extracted status line satisfies the grammar. -/
theorem extract_status_line_matches {l s : String}
    (h : extract_status_line l = some s) : statusLineMatches s = true := by
  by_cases h1 : pyStrip l = ""
  · simp [extract_status_line, h1] at h
  · by_cases h2 : statusLineMatches (pyStrip l) = true
    · have he : extract_status_line l = some (pyStrip l) := by
        simp [extract_status_line, h1, h2]
      rw [he] at h
      injection h with h
      rw [← h]
      exact h2
    · simp [extract_status_line, h1, h2] at h

/-- The retained last matching line satisfies the grammar, whatever the
initial accumulator guaranteed. -/
theorem foldl_extract_matches (lines : List String) :
    ∀ acc : Option String, (∀ t, acc = some t → statusLineMatches t = true) →
      ∀ t, lines.foldl
          (fun a l =>
            match extract_status_line l with
            | some s => some s
            | none => a) acc = some t →
        statusLineMatches t = true := by
  induction lines with
  | nil =>
    intro acc hacc t ht
    exact hacc t ht
  | cons l rest ih =>
    intro acc hacc t ht
    refine ih _ ?_ t ht
    intro t' ht'
    dsimp only at ht'
    cases hx : extract_status_line l with
    | some s =>
      rw [hx] at ht'
      cases ht'
      exact extract_status_line_matches hx
    | none =>
      rw [hx] at ht'
      exact hacc t' ht'

/-- The verdict retained by the output scan satisfies the grammar. -/
theorem last_status_line_matches {lines : List String} {s : String}
    (h : last_status_line lines = some s) : statusLineMatches s = true := by
  refine foldl_extract_matches lines none ?_ s h
  intro t ht
  exact Option.noConfusion ht

/-- A non-empty matched line is returned verbatim. -/
theorem canonical_some_of_ne {name : String} {rc : Int} {s : String}
    (h : s ≠ "") : canonical_status_line name rc (some s) = s := by
  simp [canonical_status_line, h]

/-- With no matched line and a non-zero exit code the failure line is
synthesised. -/
theorem canonical_none_nonzero {name : String} {rc : Int} (h : rc ≠ 0) :
    canonical_status_line name rc none = failSynthLine name rc := by
  simp [canonical_status_line, h]

/-- With no matched line and exit code zero the warning line is
synthesised. -/
theorem canonical_none_zero (name : String) :
    canonical_status_line name 0 none = warnSynthLine name := by
  simp [canonical_status_line]

/-- The synthesised failure line starts with the failure icon. -/
theorem head_failSynthLine (name : String) (rc : Int) :
    ∃ rest, (failSynthLine name rc).data = '❌' :: rest :=
  ⟨_, rfl⟩

/-- The synthesised warning line starts with the bare warning icon. -/
theorem head_warnSynthLine (name : String) :
    ∃ rest, (warnSynthLine name).data = '⚠' :: rest :=
  ⟨_, rfl⟩

/-- Claim C5: `canonicalize` returns a matched line verbatim; absent a
matched line it synthesises, for a non-zero exit code, a failure line that
names the script and the exit code and starts with the failure icon, and
for exit code zero a warning line, starting with the warning icon, saying
no verdict was detected. -/
theorem C5_canonical_status_line (name : String) (rc : Int) (s : String)
    (hs : statusLineMatches s = true) :
    canonical_status_line name rc (some s) = s ∧
    (rc ≠ 0 →
      canonical_status_line name rc none = failSynthLine name rc ∧
      pyStartsWith (canonical_status_line name rc none) "❌" = true) ∧
    (canonical_status_line name 0 none = warnSynthLine name ∧
      pyStartsWith (canonical_status_line name 0 none) "⚠" = true) := by
  refine ⟨canonical_some_of_ne (ne_empty_of_statusLineMatches hs), ?_, ?_⟩
  · intro h
    rw [canonical_none_nonzero h]
    exact ⟨rfl, rfl⟩
  · rw [canonical_none_zero]
    exact ⟨rfl, rfl⟩

/-- Claim C5 witness: concrete evaluations discharging the hypotheses of
`C5_canonical_status_line`. -/
theorem C5_witness :
    canonical_status_line "03_spellcheck.py" 7 (some "✅ all clear") = "✅ all clear" ∧
    canonical_status_line "03_spellcheck.py" 7 none = failSynthLine "03_spellcheck.py" 7 := by
  have h := C5_canonical_status_line "03_spellcheck.py" 7 "✅ all clear" (by decide)
  exact ⟨h.1, (h.2.1 (by decide)).1⟩

/-- Claim C6 counterexample: the line "📝 note", whose leading character is
none of the three verdict icons, is mapped to the info icon, not to the
Unknown icon, refuting "any other leading character maps to Unknown". -/
theorem C6_counterexample :
    status_icon_from_status_line (some "📝 note") = "📝" ∧
    ("📝" : String) ≠ "❔" := by
  exact ⟨rfl, by decide⟩

/-- Claim C6 (amended): `normalize_icon` maps an empty or missing line to
NotRun; otherwise the first character of the stripped line selects the
icon — Success, Failure, Warning (normalised to the U+FE0F form), the
InfoOnly icon for a leading info icon, and Unknown for anything else. -/
theorem C6_normalize_icon (line : Option String) :
    (line = none → status_icon_from_status_line line = NOT_RUN_ICON) ∧
    (∀ t, line = some t → pyStrip t = "" →
      status_icon_from_status_line line = NOT_RUN_ICON) ∧
    (∀ t c rest, line = some t → (pyStrip t).data = c :: rest →
      status_icon_from_status_line line =
        (if c = '✅' then "✅"
         else if c = '❌' then "❌"
         else if c = '⚠' then "⚠\uFE0F"
         else if c = '📝' then INFO_ONLY_ICON
         else "❔")) := by
  refine ⟨?_, ?_, ?_⟩
  · rintro rfl
    rfl
  · rintro t rfl hstrip
    by_cases ht : t = ""
    · simp [status_icon_from_status_line, ht]
    · simp [status_icon_from_status_line, ht, hstrip]
  · rintro t c rest rfl hdata
    have ht : t ≠ "" := by
      intro he
      rw [he] at hdata
      exact List.noConfusion hdata
    unfold status_icon_from_status_line
    dsimp only
    rw [if_neg ht, hdata]
    rfl

/-- Claim C6 witness: concrete evaluations discharging the hypotheses of
`C6_normalize_icon`. -/
theorem C6_witness :
    status_icon_from_status_line none = NOT_RUN_ICON ∧
    status_icon_from_status_line (some "   ") = NOT_RUN_ICON ∧
    status_icon_from_status_line (some "⚠ check names") = "⚠\uFE0F" := by
  refine ⟨(C6_normalize_icon none).1 rfl,
    (C6_normalize_icon (some "   ")).2.1 "   " rfl (by decide), ?_⟩
  have h := (C6_normalize_icon (some "⚠ check names")).2.2 "⚠ check names"
    '⚠' " check names".data rfl (by decide)
  rw [h]
  decide

/-- Claim C7: loading the status store returns the empty mapping on a
missing file and on every read or parse failure, including a file whose
content is not a mapping; a corrupt file behaves exactly like an absent
one. -/
theorem C7_load_best_effort (r : FileRead)
    (h : ∀ entries, r ≠ FileRead.parsed (PyJson.jobj entries)) :
    load_last_status r = [] ∧
    load_last_status r = load_last_status FileRead.missing := by
  cases r with
  | missing => exact ⟨rfl, rfl⟩
  | readError => exact ⟨rfl, rfl⟩
  | invalidJson => exact ⟨rfl, rfl⟩
  | parsed j =>
    cases j with
    | jobj entries => exact absurd rfl (h entries)
    | jnull => exact ⟨rfl, rfl⟩
    | jbool b => exact ⟨rfl, rfl⟩
    | jnum n => exact ⟨rfl, rfl⟩
    | jstr s => exact ⟨rfl, rfl⟩
    | jarr items => exact ⟨rfl, rfl⟩

/-- Claim C7 witness: a file parsing as a JSON array (valid JSON, not a
mapping) loads as the empty mapping, like an absent file. -/
theorem C7_witness :
    load_last_status (FileRead.parsed (PyJson.jarr [])) = [] ∧
    load_last_status (FileRead.parsed (PyJson.jarr []))
      = load_last_status FileRead.missing := by
  refine C7_load_best_effort _ ?_
  intro entries hc
  injection hc with hj
  exact PyJson.noConfusion hj

/-- Claim C4: `update` stores the icon fixed by the precedence — failure icon
on any non-zero exit code, the InfoOnly icon for informational scripts,
else the normalised icon of the verdict line; the stored icon is the pure
function `update_icon` of `(exit code, verdict line, membership)`. -/
theorem C4_update_stores_icon (st : FileRead) (name : String) (rc : Int)
    (line : Option String) :
    lookupKey (load_last_status (update_last_status st name rc line)) name
      = some (update_icon name rc line) ∧
    (rc ≠ 0 → update_icon name rc line = "❌") ∧
    (rc = 0 → is_info_only_script name = true →
      update_icon name rc line = INFO_ONLY_ICON) ∧
    (rc = 0 → is_info_only_script name = false →
      update_icon name rc line = status_icon_from_status_line line) := by
  refine ⟨?_, ?_, ?_, ?_⟩
  · have hnd : (keysOf (setKey (load_last_status st) name
        (update_icon name rc line))).Nodup :=
      nodup_keysOf_setKey (nodup_keysOf_load st)
    have hnds : (keysOf (sortByKey (setKey (load_last_status st) name
        (update_icon name rc line)))).Nodup :=
      (((perm_sortByKey _).map Prod.fst).nodup_iff).mpr hnd
    unfold update_last_status
    rw [load_save _ hnd, lookupKey_perm (perm_sortByKey _) hnds name]
    exact lookupKey_setKey_self _ _ _
  · intro h
    simp [update_icon, h]
  · intro h hinfo
    simp [update_icon, h, hinfo]
  · intro h hinfo
    simp [update_icon, h, hinfo]

/-- Claim C4 witness: the three precedence branches evaluated concretely,
through the store. -/
theorem C4_witness :
    lookupKey (load_last_status (update_last_status FileRead.missing
      "03_spellcheck.py" 2 (some "✅ all clear"))) "03_spellcheck.py" = some "❌" ∧
    update_icon "08_ward_audit.py" 0 (some "⚠ see report") = INFO_ONLY_ICON ∧
    update_icon "03_spellcheck.py" 0 (some "⚠ see report")
      = status_icon_from_status_line (some "⚠ see report") := by
  refine ⟨?_, ?_, ?_⟩
  · have h := C4_update_stores_icon FileRead.missing "03_spellcheck.py" 2
      (some "✅ all clear")
    rw [h.1, h.2.1 (by decide)]
  · exact (C4_update_stores_icon FileRead.missing "08_ward_audit.py" 0
      (some "⚠ see report")).2.2.1 rfl rfl
  · exact (C4_update_stores_icon FileRead.missing "03_spellcheck.py" 0
      (some "⚠ see report")).2.2.2 rfl rfl

/-- Claim C8: `update` is idempotent — updating twice with identical
arguments leaves exactly the same stored record as updating once. -/
theorem C8_update_idempotent (st : FileRead) (name : String) (rc : Int)
    (line : Option String) :
    update_last_status (update_last_status st name rc line) name rc line
      = update_last_status st name rc line := by
  have hnd : (keysOf (setKey (load_last_status st) name
      (update_icon name rc line))).Nodup :=
    nodup_keysOf_setKey (nodup_keysOf_load st)
  have hnds : (keysOf (sortByKey (setKey (load_last_status st) name
      (update_icon name rc line)))).Nodup :=
    (((perm_sortByKey _).map Prod.fst).nodup_iff).mpr hnd
  have hlk : lookupKey (sortByKey (setKey (load_last_status st) name
      (update_icon name rc line))) name = some (update_icon name rc line) := by
    rw [lookupKey_perm (perm_sortByKey _) hnds name]
    exact lookupKey_setKey_self _ _ _
  unfold update_last_status
  rw [load_save _ hnd, setKey_eq_self hlk]
  unfold save_last_status
  rw [sortByKey_idem]

/-- Claim C9: `update` is frame-preserving — every other script's stored
icon is unchanged. -/
theorem C9_update_frame (st : FileRead) (name : String) (rc : Int)
    (line : Option String) (other : String) (h : other ≠ name) :
    lookupKey (load_last_status (update_last_status st name rc line)) other
      = lookupKey (load_last_status st) other := by
  have hnd : (keysOf (setKey (load_last_status st) name
      (update_icon name rc line))).Nodup :=
    nodup_keysOf_setKey (nodup_keysOf_load st)
  have hnds : (keysOf (sortByKey (setKey (load_last_status st) name
      (update_icon name rc line)))).Nodup :=
    (((perm_sortByKey _).map Prod.fst).nodup_iff).mpr hnd
  unfold update_last_status
  rw [load_save _ hnd, lookupKey_perm (perm_sortByKey _) hnds other]
  exact lookupKey_setKey_other _ _ _ _ h

/-- Claim C9 witness: updating one script leaves another script's entry
untouched, evaluated on a store that already holds both. -/
theorem C9_witness :
    lookupKey (load_last_status (update_last_status
      (FileRead.parsed (PyJson.jobj
        [("02_clean_structure.py", PyJson.jstr "✅"),
         ("03_spellcheck.py", PyJson.jstr "✅")]))
      "03_spellcheck.py" 5 none)) "02_clean_structure.py"
      = lookupKey (load_last_status
        (FileRead.parsed (PyJson.jobj
          [("02_clean_structure.py", PyJson.jstr "✅"),
           ("03_spellcheck.py", PyJson.jstr "✅")]))) "02_clean_structure.py" :=
  C9_update_frame
    (FileRead.parsed (PyJson.jobj
      [("02_clean_structure.py", PyJson.jstr "✅"),
       ("03_spellcheck.py", PyJson.jstr "✅")]))
    "03_spellcheck.py" 5 none "02_clean_structure.py" (by decide)

/-- A non-zero exit code sets `any_bad` in one step of the run-all loop. -/
theorem updateFlags_bad_of_rc (name : String) (rc : Int) (line : String)
    (flags : Bool × Bool) (h : rc ≠ 0) :
    (updateFlags name rc line flags).1 = true := by
  simp [updateFlags, h]

/-- Once set, `any_bad` survives every further step of the run-all loop. -/
theorem updateFlags_preserves_bad (name : String) (rc : Int) (line : String)
    (b : Bool) : (updateFlags name rc line (true, b)).1 = true := by
  unfold updateFlags
  by_cases hinfo : is_info_only_script name <;>
    by_cases h1 : pyStartsWith line "❌" <;>
      by_cases h2 : pyStartsWith line "⚠\uFE0F" <;>
        by_cases hrc : rc ≠ 0 <;>
          simp [hinfo, h1, h2, hrc]

/-- Folding the run-all loop from a state with `any_bad` set keeps it set. -/
theorem foldl_runAllStep_preserves_bad (runs : List (String × Int × Option String)) :
    ∀ flags : Bool × Bool, flags.1 = true →
      (runs.foldl runAllStep flags).1 = true := by
  induction runs with
  | nil =>
    intro flags h
    simpa using h
  | cons r rest ih =>
    intro flags h
    obtain ⟨b1, b2⟩ := flags
    cases h
    exact ih _ (updateFlags_preserves_bad _ _ _ _)

/-- If some element of the batch has a non-zero exit code, the fold ends
with `any_bad` set, from any starting state. -/
theorem foldl_runAllStep_bad_of_mem (runs : List (String × Int × Option String)) :
    ∀ flags : Bool × Bool, (∃ r ∈ runs, r.2.1 ≠ 0) →
      (runs.foldl runAllStep flags).1 = true := by
  induction runs with
  | nil =>
    intro flags h
    simp at h
  | cons a rest ih =>
    intro flags h
    obtain ⟨r, hmem, hrc⟩ := h
    rcases List.mem_cons.mp hmem with rfl | hmem'
    · exact foldl_runAllStep_preserves_bad rest _
        (updateFlags_bad_of_rc _ _ _ _ hrc)
    · exact ih _ ⟨r, hmem', hrc⟩

/-- Claim C3: a non-zero exit code anywhere in the batch — informational or
not — forces `any_bad`, the Failed classification, and no certificate. -/
theorem C3_nonzero_exit_fails (runs : List (String × Int × Option String))
    (h : ∃ r ∈ runs, r.2.1 ≠ 0) :
    (run_all_flags runs).1 = true ∧
    classify_overall (run_all_flags runs) = Overall.Failed ∧
    certificate_attempted (run_all_flags runs) = false := by
  have hbad : (run_all_flags runs).1 = true :=
    foldl_runAllStep_bad_of_mem runs (false, false) h
  refine ⟨hbad, ?_, ?_⟩
  · simp [classify_overall, hbad]
  · simp [certificate_attempted, hbad]

/-- Claim C3 witness: a batch whose only script is informational and exits 3
still fails with no certificate. -/
theorem C3_witness :
    (run_all_flags [("08_ward_audit.py", 3, none)]).1 = true ∧
    classify_overall (run_all_flags [("08_ward_audit.py", 3, none)])
      = Overall.Failed ∧
    certificate_attempted (run_all_flags [("08_ward_audit.py", 3, none)])
      = false :=
  C3_nonzero_exit_fails [("08_ward_audit.py", 3, none)]
    ⟨("08_ward_audit.py", 3, none), by simp, by decide⟩

/-- Claim C1: the code deviates from the claimed gating rule.  The canonical
line "⚠ minor issue" — the warning icon without U+FE0F, which the
status-line grammar accepts — on a gating script with exit code 0 leaves
`any_needs_review` unset, because the gate tests a two-codepoint prefix;
the U+FE0F form does set it.  The batch is then classified Clean and the
certificate gate opens, although the stored icon records a warning. -/
theorem C1_warning_without_fe0f_not_gated :
    statusLineMatches "⚠ minor issue" = true ∧
    is_info_only_script "03_spellcheck.py" = false ∧
    canonical_status_line "03_spellcheck.py" 0 (some "⚠ minor issue")
      = "⚠ minor issue" ∧
    updateFlags "03_spellcheck.py" 0 "⚠ minor issue" (false, false)
      = (false, false) ∧
    updateFlags "03_spellcheck.py" 0 "⚠\uFE0F minor issue" (false, false)
      = (false, true) ∧
    run_all_flags [("03_spellcheck.py", 0, some "⚠ minor issue")]
      = (false, false) ∧
    certificate_attempted
      (run_all_flags [("03_spellcheck.py", 0, some "⚠ minor issue")]) = true ∧
    update_icon "03_spellcheck.py" 0 (some "⚠ minor issue") = "⚠\uFE0F" := by
  refine ⟨by decide, by decide, rfl, by decide, by decide, by decide, by decide, by decide⟩

/-- Claim C2 counterexample: with the rendering backend available and no
.docx file directly in the book folder, the certificate issuer returns a
raised error — the exception propagates to the orchestrator instead of a
warning-and-None return. -/
theorem C2_counterexample :
    write_correctness_certificate ⟨true, true, []⟩ "mybook" "20260101_120000" []
      = Except.error TitleError.noDocx := by
  rfl

/-- Claim C2 (amended): only the missing-rendering-backend case is caught —
the issuer then returns no artifact; a failed manuscript-title derivation
(zero or several .docx files) raises, and the exception propagates out of
the issuer. -/
theorem C2_cert_error_handling (env : CertEnv) (bookDirName ts : String)
    (summaries : List (String × String)) :
    (env.reportlabAvailable = false →
      write_correctness_certificate env bookDirName ts summaries
        = Except.ok none) ∧
    (env.reportlabAvailable = true → env.docxStems = [] →
      write_correctness_certificate env bookDirName ts summaries
        = Except.error TitleError.noDocx) ∧
    (env.reportlabAvailable = true → 2 ≤ env.docxStems.length →
      write_correctness_certificate env bookDirName ts summaries
        = Except.error (TitleError.multipleDocx env.docxStems.length)) := by
  obtain ⟨rl, bg, stems⟩ := env
  refine ⟨?_, ?_, ?_⟩
  · rintro rfl
    rfl
  · rintro rfl rfl
    rfl
  · rintro rfl hlen
    rcases stems with _ | ⟨a, _ | ⟨b, rest⟩⟩
    · simp at hlen
    · simp at hlen
    · rfl

/-- Claim C2 witness: concrete evaluations discharging the hypotheses of
`C2_cert_error_handling`. -/
theorem C2_witness :
    write_correctness_certificate ⟨false, true, ["my_novel"]⟩ "mybook" "ts" []
      = Except.ok none ∧
    write_correctness_certificate ⟨true, false, ["draft_a", "draft_b"]⟩
      "mybook" "ts" [] = Except.error (TitleError.multipleDocx 2) :=
  ⟨(C2_cert_error_handling ⟨false, true, ["my_novel"]⟩ "mybook" "ts" []).1 rfl,
   (C2_cert_error_handling ⟨true, false, ["draft_a", "draft_b"]⟩
     "mybook" "ts" []).2.2 rfl (by decide)⟩

/-- Every pair `run_script` can return, fed through `canonicalize`, yields a
non-empty line whose first character is one of the three icons. -/
theorem canonical_first_icon (name : String) (rc : Int) (st : Option String)
    (h : ∀ s, st = some s →
      ∃ c rest, s.data = c :: rest ∧ (c = '✅' ∨ c = '❌' ∨ c = '⚠')) :
    canonical_status_line name rc st ≠ "" ∧
    ∃ c rest, (canonical_status_line name rc st).data = c :: rest ∧
      (c = '✅' ∨ c = '❌' ∨ c = '⚠') := by
  cases st with
  | none =>
    by_cases hrc : rc ≠ 0
    · rw [canonical_none_nonzero hrc]
      obtain ⟨rest, hdata⟩ := head_failSynthLine name rc
      exact ⟨ne_empty_of_data_cons hdata, '❌', rest, hdata, Or.inr (Or.inl rfl)⟩
    · have h0 : rc = 0 := by omega
      subst h0
      rw [canonical_none_zero]
      obtain ⟨rest, hdata⟩ := head_warnSynthLine name
      exact ⟨ne_empty_of_data_cons hdata, '⚠', rest, hdata, Or.inr (Or.inr rfl)⟩
  | some s =>
    obtain ⟨c, rest, hdata, hicon⟩ := h s rfl
    have hne : s ≠ "" := ne_empty_of_data_cons hdata
    rw [canonical_some_of_ne hne]
    exact ⟨hne, c, rest, hdata, hicon⟩

/-- Claim C10: whatever `run_script` returns — a matched status line, no
line, or a synthesised failure (unsupported type, non-zero exit without a
match, interruption, spawn error) — the canonical status line computed
from it is non-empty and starts with the success, failure, or warning
icon, so the orchestrator's prefix gating always sees a leading icon. -/
theorem C10_canonical_always_iconed (name suffix : String) (ev : RunEvent) :
    canonical_status_line name (run_script name suffix ev).1
      (run_script name suffix ev).2 ≠ "" ∧
    ∃ c rest,
      (canonical_status_line name (run_script name suffix ev).1
        (run_script name suffix ev).2).data = c :: rest ∧
      (c = '✅' ∨ c = '❌' ∨ c = '⚠') := by
  by_cases hsuf : suffix ≠ ".py" ∧ suffix ≠ ".sh"
  · have hrun : run_script name suffix ev
        = (1, some ("❌ Unsupported script type: " ++ name)) := by
      simp [run_script, hsuf]
    rw [hrun]
    refine canonical_first_icon name 1 _ ?_
    rintro s hs
    injection hs with hs
    subst hs
    exact ⟨'❌', _, rfl, Or.inr (Or.inl rfl)⟩
  · cases ev with
    | completed lines rc =>
      by_cases hbad : rc ≠ 0 ∧ last_status_line lines = none
      · have hrun : run_script name suffix (RunEvent.completed lines rc)
            = (rc, some (failSynthLine name rc)) := by
          simp [run_script, hsuf, hbad.1, hbad.2]
        rw [hrun]
        refine canonical_first_icon name rc _ ?_
        rintro s hs
        injection hs with hs
        subst hs
        obtain ⟨rest, hdata⟩ := head_failSynthLine name rc
        exact ⟨'❌', rest, hdata, Or.inr (Or.inl rfl)⟩
      · have hrun : run_script name suffix (RunEvent.completed lines rc)
            = (rc, last_status_line lines) := by
          simp [run_script, hsuf, hbad]
        rw [hrun]
        cases hst : last_status_line lines with
        | none =>
          have hrc : rc = 0 := by
            by_contra hc
            exact hbad ⟨hc, hst⟩
          subst hrc
          refine canonical_first_icon name 0 none ?_
          rintro s hs
          exact Option.noConfusion hs
        | some s =>
          refine canonical_first_icon name rc _ ?_
          rintro s0 hs0
          injection hs0 with hs0
          subst hs0
          obtain ⟨c, rest, hdata, hicon⟩ :=
            statusLineMatches_head (last_status_line_matches hst)
          exact ⟨c, rest, hdata, hicon⟩
    | interrupted =>
      have hrun : run_script name suffix RunEvent.interrupted
          = (130, some ("❌ " ++ name ++ " interrupted (Ctrl+C)")) := by
        simp [run_script, hsuf]
      rw [hrun]
      refine canonical_first_icon name 130 _ ?_
      rintro s hs
      injection hs with hs
      subst hs
      exact ⟨'❌', _, rfl, Or.inr (Or.inl rfl)⟩
    | spawnError e =>
      have hrun : run_script name suffix (RunEvent.spawnError e)
          = (1, some ("❌ " ++ name ++ " runner error — " ++ e)) := by
        simp [run_script, hsuf]
      rw [hrun]
      refine canonical_first_icon name 1 _ ?_
      rintro s hs
      injection hs with hs
      subst hs
      exact ⟨'❌', _, rfl, Or.inr (Or.inl rfl)⟩

end Etna
